import Mathlib

/-!
Shallow embedding of the Pokémon-card portfolio ETL
(`Labs/Lab_04/pokemon_lab/update_portfolio.py`, `generate_summary.py`,
`pipeline.py`) and proofs of the specification claims about it.

Modelling conventions:
* A parsed lookup JSON document is a `List RawLookupRecord`; each record is
  the flattened (`pd.json_normalize`, dot-separated) view of one element of
  the document's top-level `data` array.  A field that is absent in the
  record (or whose column is absent in the whole document — pandas makes the
  cell `NaN`, and `fillna` then treats both identically) is `none`.
* Market prices are modelled as rationals `ℚ`; no claim depends on binary
  floating-point rounding, only on order, equality with `0.0`, sums and
  maxima of decimally-given values.
* A parsed inventory CSV is a `RawInvTable`: per-table `has_*` flags record
  which columns the CSV header carries (pandas column presence is uniform
  across the rows of one file), and each row carries the string cells
  (`pd.read_csv(dtype=str).fillna("")` makes every present cell a string).
  Cells of absent columns are irrelevant and read as `""` by convention.
* Directory globbing and per-file parse failures are outside the core (the
  loaders skip unreadable files), so the loaders take the lists of
  successfully parsed documents/tables, in discovery order.
* `pandas.sort_values` (an unstable sort in the source) is modelled by the
  deterministic `List.insertionSort`; every theorem about the dedup result
  except the order-sensitivity counterexample holds for any descending
  reordering, and the counterexample exhibits an order dependence that the
  source has as well (the concatenation order feeds the sort).
* `Option`-valued results model Python exceptions: `none` means the call
  raised an uncaught exception instead of returning.
-/

/-- Flattened record of a lookup document's `data` array, keeping exactly the
fields `_load_lookup_data` consumes: `id`, `set.id`, `set.name`, `name`,
`tcgplayer.prices.holofoil.market`, `tcgplayer.prices.normal.market`. -/
structure RawLookupRecord where
  id : Option String
  set_id : Option String
  set_name : Option String
  name : Option String
  holofoil_market : Option ℚ
  normal_market : Option ℚ
deriving DecidableEq, Repr

/-- Row of the table `_load_lookup_data` returns.  String columns are
`Option String` because the loader synthesizes absent columns with `pd.NA`
(`none`), and a cell missing from one record of a document is `NaN`
(also `none`). -/
structure LookupRecord where
  card_id : Option String
  set_id : Option String
  set_name : Option String
  name : Option String
  card_market_value : ℚ
deriving DecidableEq, Repr

/-- Price derivation of `_load_lookup_data` (lines 32–46): start from `0.0`;
if the holofoil-market column exists take `holo.fillna(0.0)`; where the value
is still `0.0` and the normal-market column exists take `normal.fillna(0.0)`.
Per record this collapses to: the holofoil price if present and non-zero,
else the normal price if present, else `0.0` — an absent column and a
present-but-all-`NaN`-cells column give the same cell values after
`fillna(0.0)`, so the per-document column-presence tests are redundant. -/
def derivedValue (r : RawLookupRecord) : ℚ :=
  let h := r.holofoil_market.getD 0
  if h ≠ 0 then h else r.normal_market.getD 0

/-- Per-record effect of `_load_lookup_data` on one flattened record:
rename `id` → `card_id`, `set.id` → `set_id`, `set.name` → `set_name`,
keep `name`, and attach the derived `card_market_value`. -/
def toLookupRecord (r : RawLookupRecord) : LookupRecord :=
  { card_id := r.id
    set_id := r.set_id
    set_name := r.set_name
    name := r.name
    card_market_value := derivedValue r }

/-- Concatenation (`pd.concat`) of the per-document record lists, in document
discovery order.  Documents with an empty `data` array contribute nothing,
exactly as the `continue` in the source. -/
def allLookupRecords (docs : List (List RawLookupRecord)) : List LookupRecord :=
  (docs.map (fun d => d.map toLookupRecord)).flatten

/-- Price rule exactly as the specification words it: "examine the
holofoil-market price field first; if present and non-zero, use it; otherwise
fall back to the normal-market price field; if that is also absent/zero, the
value is 0.0". -/
def claimPrice (r : RawLookupRecord) : ℚ :=
  match r.holofoil_market with
  | some h => if h ≠ 0 then h else
      match r.normal_market with
      | some n => if n ≠ 0 then n else 0
      | none => 0
  | none =>
      match r.normal_market with
      | some n => if n ≠ 0 then n else 0
      | none => 0

/-- C1: for every record in a loaded lookup document, the derived
`card_market_value` equals the holofoil-market price when that field is
present and non-zero; otherwise the normal-market price when that is present
and non-zero; otherwise `0.0`. -/
theorem derived_value_follows_price_rule (r : RawLookupRecord) :
    (toLookupRecord r).card_market_value = claimPrice r := by
  unfold toLookupRecord derivedValue claimPrice
  rcases r with ⟨i, si, sn, n, h, m⟩
  rcases h with _ | h <;> rcases m with _ | m <;> simp [Option.getD] <;>
    split_ifs <;> simp_all

/-- Descending-by-value comparison used by
`sort_values("card_market_value", ascending=False)`. -/
def valGe (a b : LookupRecord) : Prop :=
  b.card_market_value ≤ a.card_market_value

instance : DecidableRel valGe := fun a b =>
  inferInstanceAs (Decidable (b.card_market_value ≤ a.card_market_value))

instance : IsTotal LookupRecord valGe :=
  ⟨fun a b => (le_total b.card_market_value a.card_market_value).imp id id⟩

instance : IsTrans LookupRecord valGe :=
  ⟨fun _ _ _ h1 h2 => le_trans h2 h1⟩

/-- Semantics of `drop_duplicates(subset=["card_id"], keep="first")`: walk the
list front to back and keep a row only if its `card_id` was not seen before
(`pd.NA` keys count as equal to each other, as in pandas). -/
def keepFirstBy (seen : List (Option String)) : List LookupRecord → List LookupRecord
  | [] => []
  | x :: xs =>
      if x.card_id ∈ seen then keepFirstBy seen xs
      else x :: keepFirstBy (x.card_id :: seen) xs

/-- Whole lookup load: concatenate all documents' normalized records, sort
descending by `card_market_value`, drop duplicate `card_id`s keeping the
first (lines 62–68 of `update_portfolio.py`).  The source's early return for
"no documents" coincides with this on the empty list. -/
def _load_lookup_data (docs : List (List RawLookupRecord)) : List LookupRecord :=
  keepFirstBy [] (List.insertionSort valGe (allLookupRecords docs))

/-- Number of rows of `l` whose `card_id` is `k`. -/
def countKey (k : Option String) (l : List LookupRecord) : Nat :=
  l.countP (fun x => decide (x.card_id = k))

theorem mem_of_mem_keepFirstBy {seen : List (Option String)}
    {l : List LookupRecord} {x : LookupRecord}
    (h : x ∈ keepFirstBy seen l) : x ∈ l := by
  induction l generalizing seen with
  | nil => simp [keepFirstBy] at h
  | cons a t ih =>
    by_cases ha : a.card_id ∈ seen
    · simp only [keepFirstBy, if_pos ha] at h
      exact List.mem_cons_of_mem _ (ih h)
    · simp only [keepFirstBy, if_neg ha, List.mem_cons] at h
      rcases h with h | h
      · exact h ▸ List.mem_cons_self _ _
      · exact List.mem_cons_of_mem _ (ih h)

theorem key_not_seen_of_mem_keepFirstBy {seen : List (Option String)}
    {l : List LookupRecord} {x : LookupRecord}
    (h : x ∈ keepFirstBy seen l) : x.card_id ∉ seen := by
  induction l generalizing seen with
  | nil => simp [keepFirstBy] at h
  | cons a t ih =>
    by_cases ha : a.card_id ∈ seen
    · simp only [keepFirstBy, if_pos ha] at h
      exact ih h
    · simp only [keepFirstBy, if_neg ha, List.mem_cons] at h
      rcases h with h | h
      · exact h ▸ ha
      · intro hx
        exact ih h (List.mem_cons_of_mem _ hx)

theorem countKey_keepFirstBy_of_seen {seen : List (Option String)}
    {k : Option String} (hk : k ∈ seen) (l : List LookupRecord) :
    countKey k (keepFirstBy seen l) = 0 := by
  rw [countKey, List.countP_eq_zero]
  intro x hx
  simp only [decide_eq_true_eq]
  intro hxk
  exact key_not_seen_of_mem_keepFirstBy hx (hxk ▸ hk)

theorem countKey_keepFirstBy_le_one (seen : List (Option String))
    (k : Option String) (l : List LookupRecord) :
    countKey k (keepFirstBy seen l) ≤ 1 := by
  induction l generalizing seen with
  | nil => simp [keepFirstBy, countKey]
  | cons a t ih =>
    by_cases ha : a.card_id ∈ seen
    · simpa only [keepFirstBy, if_pos ha] using ih seen
    · simp only [keepFirstBy, if_neg ha]
      by_cases hk : a.card_id = k
      · subst hk
        have h0 : countKey a.card_id (keepFirstBy (a.card_id :: seen) t) = 0 :=
          countKey_keepFirstBy_of_seen (List.mem_cons_self _ _) t
        unfold countKey at h0 ⊢
        rw [List.countP_cons]
        simp [h0]
      · have := ih (a.card_id :: seen)
        unfold countKey at this ⊢
        rw [List.countP_cons]
        simpa [hk] using this

theorem countKey_keepFirstBy_eq_one {seen : List (Option String)}
    {k : Option String} {l : List LookupRecord}
    (hks : k ∉ seen) (hex : ∃ y ∈ l, y.card_id = k) :
    countKey k (keepFirstBy seen l) = 1 := by
  induction l generalizing seen with
  | nil => simp at hex
  | cons a t ih =>
    by_cases ha : a.card_id ∈ seen
    · have hak : a.card_id ≠ k := fun h => hks (h ▸ ha)
      simp only [keepFirstBy, if_pos ha]
      rcases hex with ⟨y, hy, hyk⟩
      rcases List.mem_cons.mp hy with rfl | hyt
      · exact absurd hyk hak
      · exact ih hks ⟨y, hyt, hyk⟩
    · simp only [keepFirstBy, if_neg ha]
      by_cases hk : a.card_id = k
      · subst hk
        have h0 : countKey a.card_id (keepFirstBy (a.card_id :: seen) t) = 0 :=
          countKey_keepFirstBy_of_seen (List.mem_cons_self _ _) t
        unfold countKey at h0 ⊢
        rw [List.countP_cons]
        simp [h0]
      · rcases hex with ⟨y, hy, hyk⟩
        rcases List.mem_cons.mp hy with rfl | hyt
        · exact absurd hyk hk
        · have hk2 : k ∉ a.card_id :: seen := by
            simp only [List.mem_cons]
            rintro (h | h)
            · exact hk h.symm
            · exact hks h
          have := ih hk2 ⟨y, hyt, hyk⟩
          unfold countKey at this ⊢
          rw [List.countP_cons]
          simpa [hk] using this

theorem keepFirstBy_max_of_sorted {seen : List (Option String)}
    {l : List LookupRecord} (hs : l.Pairwise valGe)
    {x : LookupRecord} (hx : x ∈ keepFirstBy seen l) :
    ∀ y ∈ l, y.card_id = x.card_id →
      y.card_market_value ≤ x.card_market_value := by
  induction l generalizing seen with
  | nil => simp [keepFirstBy] at hx
  | cons a t ih =>
    rcases List.pairwise_cons.mp hs with ⟨ha_all, ht⟩
    by_cases ha : a.card_id ∈ seen
    · simp only [keepFirstBy, if_pos ha] at hx
      intro y hy hyk
      rcases List.mem_cons.mp hy with rfl | hyt
      · exact absurd (hyk ▸ ha) (key_not_seen_of_mem_keepFirstBy hx)
      · exact ih ht hx y hyt hyk
    · simp only [keepFirstBy, if_neg ha, List.mem_cons] at hx
      rcases hx with rfl | hx
      · intro y hy _
        rcases List.mem_cons.mp hy with rfl | hyt
        · exact le_refl _
        · exact ha_all y hyt
      · intro y hy hyk
        rcases List.mem_cons.mp hy with rfl | hyt
        · have hns := key_not_seen_of_mem_keepFirstBy hx
          exact absurd (List.mem_cons_self _ _) (hyk ▸ hns)
        · exact ih ht hx y hyt hyk

/-- C2: after the lookup load completes, every `card_id` appearing in any
source document is carried by exactly one record of the returned table, and
that record is one of the source records and its `card_market_value` is the
maximum among all source records sharing the `card_id`. -/
theorem lookup_dedup_unique_max (docs : List (List RawLookupRecord))
    (k : Option String)
    (hk : ∃ y ∈ allLookupRecords docs, y.card_id = k) :
    countKey k (_load_lookup_data docs) = 1 ∧
    ∀ x ∈ _load_lookup_data docs, x.card_id = k →
      x ∈ allLookupRecords docs ∧
      ∀ y ∈ allLookupRecords docs, y.card_id = k →
        y.card_market_value ≤ x.card_market_value := by
  have hperm := List.perm_insertionSort valGe (allLookupRecords docs)
  constructor
  · refine countKey_keepFirstBy_eq_one (by simp) ?_
    rcases hk with ⟨y, hy, hyk⟩
    exact ⟨y, hperm.mem_iff.mpr hy, hyk⟩
  · intro x hx hxk
    refine ⟨hperm.mem_iff.mp (mem_of_mem_keepFirstBy hx), ?_⟩
    intro y hy hyk
    exact keepFirstBy_max_of_sorted (List.sorted_insertionSort valGe _) hx y
      (hperm.mem_iff.mpr hy) (hyk.trans hxk.symm)

/-- Witness for C2 at concrete input: two documents carry the id
`"base4-4"` at values 120 and 30; the loaded table keeps exactly one record
with that id, drawn from the sources and maximal among them. -/
theorem lookup_dedup_unique_max_witness :
    (∃ y ∈ allLookupRecords
        [[⟨some "base4-4", some "base4", some "Base Set 2", some "Charizard",
            some 120, none⟩],
         [⟨some "base4-4", some "base4", some "Base Set 2", some "Charizard",
            none, some 30⟩]], y.card_id = some "base4-4") ∧
    (countKey (some "base4-4") (_load_lookup_data
        [[⟨some "base4-4", some "base4", some "Base Set 2", some "Charizard",
            some 120, none⟩],
         [⟨some "base4-4", some "base4", some "Base Set 2", some "Charizard",
            none, some 30⟩]]) = 1 ∧
     ∀ x ∈ _load_lookup_data
        [[⟨some "base4-4", some "base4", some "Base Set 2", some "Charizard",
            some 120, none⟩],
         [⟨some "base4-4", some "base4", some "Base Set 2", some "Charizard",
            none, some 30⟩]], x.card_id = some "base4-4" →
       x ∈ allLookupRecords
        [[⟨some "base4-4", some "base4", some "Base Set 2", some "Charizard",
            some 120, none⟩],
         [⟨some "base4-4", some "base4", some "Base Set 2", some "Charizard",
            none, some 30⟩]] ∧
       ∀ y ∈ allLookupRecords
        [[⟨some "base4-4", some "base4", some "Base Set 2", some "Charizard",
            some 120, none⟩],
         [⟨some "base4-4", some "base4", some "Base Set 2", some "Charizard",
            none, some 30⟩]], y.card_id = some "base4-4" →
         y.card_market_value ≤ x.card_market_value) :=
  ⟨by decide, lookup_dedup_unique_max _ _ (by decide)⟩

/-- Python `str.strip()` (also pandas `.str.strip()`): remove leading and
trailing whitespace, modelled character-wise.  `Char.isWhitespace` covers the
whitespace that occurs in the data. -/
def pyStrip (s : String) : String :=
  ⟨((s.data.dropWhile Char.isWhitespace).reverse.dropWhile
      Char.isWhitespace).reverse⟩

/-- Cells of one row of a parsed inventory CSV (`pd.read_csv(dtype=str)`
followed by `fillna("")`): every present cell is a string.  A cell whose
column the table does not carry (see `RawInvTable`) is irrelevant and held as
`""` by convention. -/
structure RawInvRow where
  card_name : String
  name : String
  set_id : String
  card_number : String
  number : String
  binder_name : String
  page_number : String
  slot_number : String
deriving DecidableEq, Repr

/-- Parsed inventory CSV: which columns its header carries, plus the rows.
The alternate headers `number` and `name` are tracked separately from the
canonical `card_number` and `card_name`. -/
structure RawInvTable where
  has_card_name : Bool
  has_name : Bool
  has_set_id : Bool
  has_card_number : Bool
  has_number : Bool
  has_binder_name : Bool
  has_page_number : Bool
  has_slot_number : Bool
  rows : List RawInvRow
deriving DecidableEq, Repr

/-- Row of the table `_load_inventory_data` returns. -/
structure InvRow where
  card_id : String
  card_name : String
  set_id : String
  card_number : String
  binder_name : String
  page_number : String
  slot_number : String
deriving DecidableEq, Repr

/-- Cell of the `card_name` column after the `rename` (line 93): the
canonical column if the header carries it, else the alternate `name` column,
else the synthesized `""` column (line 106). -/
def colCardName (t : RawInvTable) (r : RawInvRow) : String :=
  if t.has_card_name then r.card_name
  else if t.has_name then r.name
  else ""

/-- Cell of the `card_number` column after the `rename`: canonical column,
else alternate `number`, else synthesized `""`. -/
def colCardNumber (t : RawInvTable) (r : RawInvRow) : String :=
  if t.has_card_number then r.card_number
  else if t.has_number then r.number
  else ""

/-- Cell of a column with no alternate spelling: the column if present,
else the synthesized `""`. -/
def colOrEmpty (has : Bool) (cell : String) : String :=
  if has then cell else ""

/-- Per-row effect of `_load_inventory_data` (lines 92–117): normalize
headers, synthesize missing columns as `""`, strip `set_id` and
`card_number` in place, and derive `card_id = set_id + "-" + card_number`. -/
def loadInvRow (t : RawInvTable) (r : RawInvRow) : InvRow :=
  let sid := pyStrip (colOrEmpty t.has_set_id r.set_id)
  let cnum := pyStrip (colCardNumber t r)
  { card_id := sid ++ "-" ++ cnum
    card_name := colCardName t r
    set_id := sid
    card_number := cnum
    binder_name := colOrEmpty t.has_binder_name r.binder_name
    page_number := colOrEmpty t.has_page_number r.page_number
    slot_number := colOrEmpty t.has_slot_number r.slot_number }

/-- The `rename` of line 93 maps `number` to `card_number` (and `name` to
`card_name`) even when the canonical column already exists, leaving the frame
with two columns of the same label; the subsequent `.str` accessor on that
duplicated label then raises an uncaught exception (the `try` of line 86 only
guards `read_csv`). -/
def dupHeaderClash (t : RawInvTable) : Bool :=
  (t.has_card_name && t.has_name) || (t.has_card_number && t.has_number)

/-- Effect of one iteration of the CSV loop in `_load_inventory_data`:
`none` models the uncaught duplicate-label exception. -/
def loadInvTable (t : RawInvTable) : Option (List InvRow) :=
  if dupHeaderClash t then none
  else some (t.rows.map (loadInvRow t))

/-- Whole inventory load: concatenate the per-table results in discovery
order (`pd.concat`, line 122); an exception while processing any table
aborts the whole call. -/
def _load_inventory_data : List RawInvTable → Option (List InvRow)
  | [] => some []
  | t :: ts =>
      match loadInvTable t, _load_inventory_data ts with
      | some rs, some rest => some (rs ++ rest)
      | _, _ => none

/-- Identifier derivation exactly as the specification words it, applied to
the source cells after header normalization: trim `set_id` and
`card_number`, concatenate with a hyphen. -/
def claimCardId (t : RawInvTable) (r : RawInvRow) : String :=
  pyStrip (colOrEmpty t.has_set_id r.set_id) ++ "-" ++ pyStrip (colCardNumber t r)

/-- C3: every row of the loaded inventory table has
`card_id = trim(set_id) + "-" + trim(card_number)`, computed from the source
cells with the alternate headers `number`/`name` first normalized to
`card_number`/`card_name`. -/
theorem inventory_card_id_derivation (tables : List RawInvTable)
    (inv : List InvRow) (h : _load_inventory_data tables = some inv) :
    inv.map (fun row => row.card_id) =
      (tables.map (fun t => t.rows.map (claimCardId t))).flatten := by
  induction tables generalizing inv with
  | nil =>
    simp only [_load_inventory_data, Option.some.injEq] at h
    subst h
    simp
  | cons t ts ih =>
    simp only [_load_inventory_data] at h
    rcases ht : loadInvTable t with _ | rs
    · rw [ht] at h; simp at h
    · rw [ht] at h
      rcases hts : _load_inventory_data ts with _ | rest
      · rw [hts] at h; simp at h
      · rw [hts] at h
        simp only [Option.some.injEq] at h
        subst h
        simp only [List.map_append, List.map_cons, List.flatten_cons]
        rw [ih rest hts]
        congr 1
        unfold loadInvTable at ht
        by_cases hd : dupHeaderClash t
        · simp [hd] at ht
        · rw [if_neg (by simp [hd])] at ht
          rcases ht with ⟨rfl⟩
          simp only [List.map_map]
          rfl

/-- Witness for C3 at concrete input: one CSV using the alternate headers
`name` and `number`, with whitespace around `set_id` and the number. -/
theorem inventory_card_id_derivation_witness :
    _load_inventory_data
        [⟨false, true, true, false, true, true, true, true,
          [⟨"", "Charizard", " base4 ", "", " 4 ", "Binder A", "1", "2"⟩]⟩] =
      some [⟨"base4-4", "Charizard", "base4", "4", "Binder A", "1", "2"⟩] ∧
    ([(⟨"base4-4", "Charizard", "base4", "4", "Binder A", "1", "2"⟩ : InvRow)].map
        (fun row => row.card_id) =
      ([⟨false, true, true, false, true, true, true, true,
          [⟨"", "Charizard", " base4 ", "", " 4 ", "Binder A", "1", "2"⟩]⟩].map
        (fun t : RawInvTable => t.rows.map (claimCardId t))).flatten) :=
  ⟨by decide, inventory_card_id_derivation _ _ (by decide)⟩

/-- Row of the final portfolio table written by `update_portfolio`. -/
structure PortfolioRow where
  card_id : String
  card_name : String
  set_id : String
  card_number : String
  binder_name : String
  page_number : String
  slot_number : String
  set_name : String
  card_market_value : ℚ
  index : String
deriving DecidableEq, Repr

/-- Post-merge cleaning of `update_portfolio` (lines 174–188) for one
inventory row and its lookup match (if any): `set_name` is
`fillna("NOT_FOUND")` — this also fills a matched lookup row whose own
`set_name` is `NA` —, `card_market_value` is `fillna(0.0)`, and `index` is
the hyphen-join of the stripped location columns (the location cells
themselves are left untrimmed). -/
def mkPortfolioRow (r : InvRow) (m : Option LookupRecord) : PortfolioRow :=
  { card_id := r.card_id
    card_name := r.card_name
    set_id := r.set_id
    card_number := r.card_number
    binder_name := r.binder_name
    page_number := r.page_number
    slot_number := r.slot_number
    set_name := (m.bind (fun lr => lr.set_name)).getD "NOT_FOUND"
    card_market_value := match m with
      | some lr => lr.card_market_value
      | none => 0
    index := pyStrip r.binder_name ++ "-" ++ pyStrip r.page_number ++ "-" ++
      pyStrip r.slot_number }

/-- Left join of line 175, `pd.merge(inventory_df, lookup_sub, on="card_id",
how="left")`: each inventory row, in order, paired with every lookup row of
equal `card_id` (in lookup order), or with no match when there is none.  An
inventory `card_id` is always a string, so it never matches a lookup row
whose `card_id` is `NA`. -/
def mergeLeft (inv : List InvRow) (lookup : List LookupRecord) :
    List PortfolioRow :=
  inv.flatMap (fun r =>
    match lookup.filter (fun lr => decide (lr.card_id = some r.card_id)) with
    | [] => [mkPortfolioRow r none]
    | ms => ms.map (fun lr => mkPortfolioRow r (some lr)))

/-- The fixed ten-column final header (lines 150–161). -/
def final_cols : List String :=
  ["card_id", "card_name", "set_id", "card_number", "binder_name",
   "page_number", "slot_number", "set_name", "card_market_value", "index"]

/-- Observable outcome of a completed `update_portfolio` run: the header and
data rows of the CSV it writes, and whether the empty-inventory diagnostic
was printed to stderr. -/
structure UpdateOutput where
  header : List String
  rows : List PortfolioRow
  emptyInventoryDiag : Bool
deriving DecidableEq, Repr

/-- Orchestration of `update_portfolio` (lines 127–201): load both sides;
on empty inventory write the header-only CSV, print the diagnostic and
return; otherwise merge, clean and write.  `none` models an uncaught
exception out of the inventory loader. -/
def update_portfolio (tables : List RawInvTable)
    (docs : List (List RawLookupRecord)) : Option UpdateOutput :=
  match _load_inventory_data tables with
  | none => none
  | some inv =>
      if inv.isEmpty then some ⟨final_cols, [], true⟩
      else some ⟨final_cols, mergeLeft inv (_load_lookup_data docs), false⟩

/-- C6: when the loaded inventory table is empty, `update_portfolio` skips
the join and returns normally with an output consisting of exactly the
ten-column final header and no data rows, with the empty-inventory
diagnostic reported on stderr. -/
theorem empty_inventory_header_only (tables : List RawInvTable)
    (docs : List (List RawLookupRecord))
    (h : _load_inventory_data tables = some []) :
    update_portfolio tables docs = some ⟨final_cols, [], true⟩ ∧
    final_cols.length = 10 := by
  constructor
  · unfold update_portfolio
    rw [h]
    rfl
  · rfl

/-- Witness for C6: the run over no inventory files and no lookup files. -/
theorem empty_inventory_header_only_witness :
    update_portfolio [] [] = some ⟨final_cols, [], true⟩ ∧
    final_cols.length = 10 :=
  empty_inventory_header_only [] [] (by decide)

/-- C5: every row of the merge output has
`index = strip(binder_name) + "-" + strip(page_number) + "-" +
strip(slot_number)`; the components are strings (missing source cells were
already replaced by `""` at load time). -/
theorem merge_output_index_derivation (tables : List RawInvTable)
    (docs : List (List RawLookupRecord)) (out : UpdateOutput)
    (h : update_portfolio tables docs = some out) :
    ∀ row ∈ out.rows,
      row.index = pyStrip row.binder_name ++ "-" ++ pyStrip row.page_number
        ++ "-" ++ pyStrip row.slot_number := by
  unfold update_portfolio at h
  rcases hi : _load_inventory_data tables with _ | inv
  · rw [hi] at h; simp at h
  · rw [hi] at h
    dsimp only at h
    by_cases he : inv.isEmpty
    · rw [if_pos he] at h
      rcases Option.some.injEq .. ▸ h with rfl
      intro row hrow
      simp at hrow
    · rw [if_neg he] at h
      rcases Option.some.injEq .. ▸ h with rfl
      intro row hrow
      simp only [mergeLeft, List.mem_flatMap] at hrow
      rcases hrow with ⟨r, _, hrm⟩
      rcases hm : List.filter (fun lr => decide (lr.card_id = some r.card_id))
          (_load_lookup_data docs) with _ | ⟨m, ms⟩
      · rw [hm] at hrm
        simp only [List.mem_singleton] at hrm
        subst hrm
        rfl
      · rw [hm] at hrm
        simp only [List.mem_map] at hrm
        rcases hrm with ⟨lr, _, hlr⟩
        subst hlr
        rfl

/-- Witness for C5: one inventory row with whitespace-laden location cells
and no lookup data. -/
theorem merge_output_index_derivation_witness :
    update_portfolio
        [⟨true, false, true, true, false, true, true, true,
          [⟨"Charizard", "", "base4", "4", "", " Binder A ", " 1", "2 "⟩]⟩] [] =
      some ⟨final_cols,
        [⟨"base4-4", "Charizard", "base4", "4", " Binder A ", " 1", "2 ",
          "NOT_FOUND", 0, "Binder A-1-2"⟩], false⟩ ∧
    (∀ row ∈ [(⟨"base4-4", "Charizard", "base4", "4", " Binder A ", " 1",
        "2 ", "NOT_FOUND", 0, "Binder A-1-2"⟩ : PortfolioRow)],
      row.index = pyStrip row.binder_name ++ "-" ++ pyStrip row.page_number
        ++ "-" ++ pyStrip row.slot_number) := by
  constructor
  · decide
  · have := merge_output_index_derivation
      [⟨true, false, true, true, false, true, true, true,
        [⟨"Charizard", "", "base4", "4", "", " Binder A ", " 1", "2 "⟩]⟩] []
      ⟨final_cols,
        [⟨"base4-4", "Charizard", "base4", "4", " Binder A ", " 1", "2 ",
          "NOT_FOUND", 0, "Binder A-1-2"⟩], false⟩ (by decide)
    simpa using this

theorem countKey_load_lookup_le_one (k : Option String)
    (docs : List (List RawLookupRecord)) :
    countKey k (_load_lookup_data docs) ≤ 1 :=
  countKey_keepFirstBy_le_one [] k _

theorem filter_card_id_length_le_one {lookup : List LookupRecord}
    (hu : ∀ k, countKey k lookup ≤ 1) (cid : String) :
    (lookup.filter (fun lr => decide (lr.card_id = some cid))).length ≤ 1 := by
  have := hu (some cid)
  rwa [countKey, List.countP_eq_length_filter] at this

theorem mergeLeft_length {lookup : List LookupRecord}
    (hu : ∀ k, countKey k lookup ≤ 1) (inv : List InvRow) :
    (mergeLeft inv lookup).length = inv.length := by
  induction inv with
  | nil => rfl
  | cons r rs ih =>
    simp only [mergeLeft, List.flatMap_cons, List.length_append]
    rw [mergeLeft] at ih
    rw [ih, List.length_cons]
    rcases hm : lookup.filter (fun lr => decide (lr.card_id = some r.card_id))
      with _ | ⟨m, ms⟩
    · rw [hm]
      dsimp only
      rw [List.length_singleton, Nat.add_comm]
    · rcases ms with _ | ⟨m2, ms2⟩
      · rw [hm]
        dsimp only
        rw [List.length_map, List.length_singleton, Nat.add_comm]
      · have hle := filter_card_id_length_le_one hu r.card_id
        rw [hm] at hle
        simp at hle

/-- C4: for a non-empty loaded inventory, the merge output has exactly one
row per inventory row, and every output row whose `card_id` matches no row
of the deduplicated lookup table carries `set_name = "NOT_FOUND"` and
`card_market_value = 0.0`. -/
theorem merge_preserves_inventory_rows (tables : List RawInvTable)
    (docs : List (List RawLookupRecord)) (inv : List InvRow)
    (out : UpdateOutput)
    (h1 : _load_inventory_data tables = some inv) (h2 : inv ≠ [])
    (h3 : update_portfolio tables docs = some out) :
    out.rows.length = inv.length ∧
    ∀ row ∈ out.rows,
      (∀ lr ∈ _load_lookup_data docs, lr.card_id ≠ some row.card_id) →
        row.set_name = "NOT_FOUND" ∧ row.card_market_value = 0 := by
  unfold update_portfolio at h3
  rw [h1] at h3
  dsimp only at h3
  rw [if_neg (by simpa using h2)] at h3
  rcases Option.some.injEq .. ▸ h3 with rfl
  constructor
  · exact mergeLeft_length (fun k => countKey_load_lookup_le_one k docs) inv
  · intro row hrow hnomatch
    simp only [mergeLeft, List.mem_flatMap] at hrow
    rcases hrow with ⟨r, _, hrm⟩
    rcases hm : List.filter (fun lr => decide (lr.card_id = some r.card_id))
        (_load_lookup_data docs) with _ | ⟨m, ms⟩
    · rw [hm] at hrm
      simp only [List.mem_singleton] at hrm
      subst hrm
      exact ⟨rfl, rfl⟩
    · rw [hm] at hrm
      simp only [List.mem_map] at hrm
      rcases hrm with ⟨lr, hlr, rfl⟩
      have hmem : lr ∈ List.filter
          (fun lr => decide (lr.card_id = some r.card_id))
          (_load_lookup_data docs) := by rw [hm]; exact hlr
      rcases List.mem_filter.mp hmem with ⟨hin, hkey⟩
      simp only [decide_eq_true_eq] at hkey
      exact absurd hkey (hnomatch lr hin)

/-- Witness for C4: two inventory rows, one with a lookup match and one
without; the output has two rows and the unmatched one carries the sentinel
values. -/
theorem merge_preserves_inventory_rows_witness :
    _load_inventory_data
        [⟨true, false, true, true, false, true, true, true,
          [⟨"Charizard", "", "base4", "4", "", "B", "1", "1"⟩,
           ⟨"Pikachu", "", "xy1", "9", "", "B", "1", "2"⟩]⟩] =
      some [⟨"base4-4", "Charizard", "base4", "4", "B", "1", "1"⟩,
            ⟨"xy1-9", "Pikachu", "xy1", "9", "B", "1", "2"⟩] ∧
    ((⟨final_cols,
        [⟨"base4-4", "Charizard", "base4", "4", "B", "1", "1",
          "Base Set 2", 120, "B-1-1"⟩,
         ⟨"xy1-9", "Pikachu", "xy1", "9", "B", "1", "2",
          "NOT_FOUND", 0, "B-1-2"⟩], false⟩ : UpdateOutput).rows.length =
      [(⟨"base4-4", "Charizard", "base4", "4", "B", "1", "1"⟩ : InvRow),
       ⟨"xy1-9", "Pikachu", "xy1", "9", "B", "1", "2"⟩].length ∧
     ∀ row ∈ (⟨final_cols,
        [⟨"base4-4", "Charizard", "base4", "4", "B", "1", "1",
          "Base Set 2", 120, "B-1-1"⟩,
         ⟨"xy1-9", "Pikachu", "xy1", "9", "B", "1", "2",
          "NOT_FOUND", 0, "B-1-2"⟩], false⟩ : UpdateOutput).rows,
       (∀ lr ∈ _load_lookup_data
          [[⟨some "base4-4", some "base4", some "Base Set 2",
              some "Charizard", some 120, none⟩]],
         lr.card_id ≠ some row.card_id) →
         row.set_name = "NOT_FOUND" ∧ row.card_market_value = 0) :=
  ⟨by decide,
   merge_preserves_inventory_rows
     [⟨true, false, true, true, false, true, true, true,
       [⟨"Charizard", "", "base4", "4", "", "B", "1", "1"⟩,
        ⟨"Pikachu", "", "xy1", "9", "", "B", "1", "2"⟩]⟩]
     [[⟨some "base4-4", some "base4", some "Base Set 2", some "Charizard",
         some 120, none⟩]]
     [⟨"base4-4", "Charizard", "base4", "4", "B", "1", "1"⟩,
      ⟨"xy1-9", "Pikachu", "xy1", "9", "B", "1", "2"⟩]
     ⟨final_cols,
       [⟨"base4-4", "Charizard", "base4", "4", "B", "1", "1",
         "Base Set 2", 120, "B-1-1"⟩,
        ⟨"xy1-9", "Pikachu", "xy1", "9", "B", "1", "2",
         "NOT_FOUND", 0, "B-1-2"⟩], false⟩
     (by decide) (by decide) (by decide)⟩

/-- Row of a parsed portfolio CSV as `generate_summary` reads it: only the
three columns the report consumes are modelled.  A cell of a column the file
does not carry (see `PortfolioTable`) is irrelevant. -/
structure PortfolioTableRow where
  card_name : String
  card_id : String
  card_market_value : ℚ
deriving DecidableEq, Repr

/-- Parsed portfolio CSV: which of the consumed columns the header carries,
plus the rows. -/
structure PortfolioTable where
  has_value_col : Bool
  has_card_name_col : Bool
  has_card_id_col : Bool
  rows : List PortfolioTableRow
deriving DecidableEq, Repr

/-- State of the portfolio path as `generate_summary` finds it. -/
inductive PortfolioFile where
  | missing
  | unparseable
  | parsed (t : PortfolioTable)
deriving DecidableEq, Repr

/-- Observable outcome of `generate_summary`:
`fatalExit` is the explicit `sys.exit(1)` with a diagnostic on stderr;
`noData` is the clean return with the no-data message;
`crash` is an uncaught exception (non-zero process exit, traceback on
stderr) after part of the report was printed;
`report` is the completed report with its total, the most-valuable row (when
one was determined) and whether the missing-value-column diagnostic was
printed. -/
inductive SummaryOutcome where
  | fatalExit
  | noData
  | crash
  | report (total : ℚ) (most : Option PortfolioTableRow)
      (missingValueColDiag : Bool)
deriving DecidableEq, Repr

/-- Maximum of a list of values; the `[]` case never reaches pandas
(`idxmax` is only called on a non-empty frame). -/
def maxVal : List ℚ → ℚ
  | [] => 0
  | [v] => v
  | v :: w :: vs => max v (maxVal (w :: vs))

/-- Semantics of `Series.idxmax` on a default `RangeIndex`: the position of
the first occurrence of the maximum. -/
def idxmax : List ℚ → Nat
  | [] => 0
  | [_] => 0
  | v :: w :: vs => if v < maxVal (w :: vs) then idxmax (w :: vs) + 1 else 0

/-- Execution of `generate_summary` (`generate_summary.py` lines 9–57):
fail fast on a missing or unparseable file; return cleanly on an empty
frame; otherwise sum the value column (0 plus a diagnostic when it is
absent), take the row at `idxmax` as most valuable when the column exists,
and print the report — which raises an uncaught `KeyError` if it must print
the most-valuable card but the frame lacks `card_name` (line 51) or
`card_id` (line 52). -/
def generate_summary : PortfolioFile → SummaryOutcome
  | .missing => .fatalExit
  | .unparseable => .fatalExit
  | .parsed t =>
      if t.rows.isEmpty then .noData
      else
        let vals := t.rows.map (fun row => row.card_market_value)
        let total : ℚ := if t.has_value_col then vals.sum else 0
        let most : Option PortfolioTableRow :=
          if t.has_value_col then t.rows[idxmax vals]? else none
        match most with
        | some mv =>
            if t.has_card_name_col && t.has_card_id_col then
              .report total (some mv) (!t.has_value_col)
            else .crash
        | none => .report total none (!t.has_value_col)

/-- Process exits with a non-zero status and output on the error stream:
the explicit `sys.exit(1)` path or an uncaught exception. -/
def exitsNonZero : SummaryOutcome → Bool
  | .fatalExit => true
  | .crash => true
  | _ => false

theorem idxmax_lt_length : ∀ (l : List ℚ), l ≠ [] → idxmax l < l.length
  | [_], _ => by simp [idxmax]
  | v :: w :: vs, _ => by
    rw [idxmax]
    by_cases h : v < maxVal (w :: vs)
    · rw [if_pos h]
      have := idxmax_lt_length (w :: vs) (by simp)
      simpa [List.length_cons] using Nat.succ_lt_succ this
    · rw [if_neg h]
      simp

theorem getElem_idxmax_eq_maxVal :
    ∀ (l : List ℚ), l ≠ [] → l[idxmax l]? = some (maxVal l)
  | [_], _ => by simp [idxmax, maxVal]
  | v :: w :: vs, _ => by
    rw [idxmax, maxVal]
    by_cases h : v < maxVal (w :: vs)
    · rw [if_pos h]
      have := getElem_idxmax_eq_maxVal (w :: vs) (by simp)
      simpa [max_eq_right (le_of_lt h)] using this
    · rw [if_neg h]
      simp [max_eq_left (le_of_not_lt h)]

theorem le_maxVal : ∀ (l : List ℚ), ∀ v ∈ l, v ≤ maxVal l
  | [] => by intro v hv; simp at hv
  | [_] => by
    intro v hv
    simp only [List.mem_singleton] at hv
    simp [maxVal, hv]
  | _ :: w :: vs => by
    intro v hv
    rw [maxVal]
    rcases List.mem_cons.mp hv with rfl | hv2
    · exact le_max_left _ _
    · exact le_trans (le_maxVal (w :: vs) v hv2) (le_max_right _ _)

theorem lt_maxVal_of_lt_idxmax :
    ∀ (l : List ℚ), ∀ j < idxmax l, ∀ x, l[j]? = some x → x < maxVal l
  | [] => by intro j hj; simp [idxmax] at hj
  | [_] => by intro j hj; simp [idxmax] at hj
  | v :: w :: vs => by
    intro j hj x hx
    rw [idxmax] at hj
    rw [maxVal]
    by_cases h : v < maxVal (w :: vs)
    · rw [if_pos h] at hj
      rcases j with _ | j2
      · simp only [List.getElem?_cons_zero, Option.some.injEq] at hx
        subst hx
        simpa [max_eq_right (le_of_lt h)] using h
      · have := lt_maxVal_of_lt_idxmax (w :: vs) j2
          (Nat.lt_of_succ_lt_succ hj) x (by simpa using hx)
        exact lt_of_lt_of_le this (le_max_right _ _)
    · rw [if_neg h] at hj
      exact absurd hj (Nat.not_lt_zero j)

/-- Counterexample to C7 as stated: this file parses (it is neither missing
nor unparseable), yet `generate_summary` exits with a non-zero status and
output on the error stream — the frame has a `card_market_value` column and
a row, but no `card_name` column, so printing the most-valuable card raises
an uncaught `KeyError`. -/
theorem summary_exit_iff_counterexample :
    exitsNonZero (generate_summary
      (.parsed ⟨true, false, true, [⟨"", "x", 5⟩]⟩)) = true ∧
    PortfolioFile.parsed ⟨true, false, true, [⟨"", "x", 5⟩]⟩ ≠ .missing ∧
    PortfolioFile.parsed ⟨true, false, true, [⟨"", "x", 5⟩]⟩ ≠
      .unparseable := by
  decide

/-- C7 amended: `generate_summary` exits non-zero with a diagnostic on the
error stream iff the portfolio file does not exist, cannot be parsed, or —
beyond the claim as stated — parses to a non-empty table that has the
`card_market_value` column but lacks `card_name` or `card_id` (the report
then dies of an uncaught `KeyError`).  A parsed table with zero rows still
yields the clean no-data return. -/
theorem summary_exit_conditions (f : PortfolioFile) :
    (exitsNonZero (generate_summary f) = true ↔
      f = .missing ∨ f = .unparseable ∨
      ∃ t, f = .parsed t ∧ t.rows ≠ [] ∧ t.has_value_col = true ∧
        (t.has_card_name_col = false ∨ t.has_card_id_col = false)) ∧
    (∀ t, f = .parsed t → t.rows = [] → generate_summary f = .noData) := by
  rcases f with _ | _ | t
  · refine ⟨by simp [generate_summary, exitsNonZero], ?_⟩
    intro t h
    simp at h
  · refine ⟨by simp [generate_summary, exitsNonZero], ?_⟩
    intro t h
    simp at h
  · constructor
    · by_cases he : t.rows.isEmpty
      · rw [generate_summary, if_pos he]
        simp only [exitsNonZero]
        constructor
        · intro h
          exact absurd h (by simp)
        · rintro (h | h | ⟨t2, ht2, hne, _⟩)
          · exact absurd h (by simp)
          · exact absurd h (by simp)
          · rcases PortfolioFile.parsed.injEq .. ▸ ht2 with rfl
            exact absurd (List.isEmpty_iff.mp he) hne
      · rw [generate_summary, if_neg he]
        by_cases hv : t.has_value_col
        · have hne : t.rows ≠ [] := fun h => he (by simp [h])
          have hlt : idxmax (t.rows.map (fun row => row.card_market_value)) <
              t.rows.length := by
            have := idxmax_lt_length (t.rows.map (fun row => row.card_market_value))
              (by simpa using hne)
            simpa using this
          obtain ⟨mv, hget⟩ : ∃ mv, t.rows[idxmax (t.rows.map
              (fun row => row.card_market_value))]? = some mv :=
            ⟨_, List.getElem?_eq_getElem hlt⟩
          simp only [hv, if_true, hget]
          by_cases hnc : t.has_card_name_col && t.has_card_id_col
          · rw [if_pos hnc]
            simp only [exitsNonZero, Bool.and_eq_true] at hnc ⊢
            constructor
            · intro h
              exact absurd h (by simp)
            · rintro (h | h | ⟨t2, ht2, _, _, hcols⟩)
              · exact absurd h (by simp)
              · exact absurd h (by simp)
              · rcases PortfolioFile.parsed.injEq .. ▸ ht2 with rfl
                rcases hcols with hc | hc
                · rw [hnc.1] at hc; exact absurd hc (by simp)
                · rw [hnc.2] at hc; exact absurd hc (by simp)
          · rw [if_neg hnc]
            simp only [exitsNonZero, true_iff]
            refine Or.inr (Or.inr ⟨t, rfl, hne, hv, ?_⟩)
            rcases Bool.and_eq_true .. ▸ hnc |> not_and_or.mp with hc | hc
            · exact Or.inl (Bool.not_eq_true _ ▸ hc)
            · exact Or.inr (Bool.not_eq_true _ ▸ hc)
        · simp only [if_neg hv]
          simp only [exitsNonZero]
          constructor
          · intro h
            exact absurd h (by simp)
          · rintro (h | h | ⟨t2, ht2, _, hvc, _⟩)
            · exact absurd h (by simp)
            · exact absurd h (by simp)
            · rcases PortfolioFile.parsed.injEq .. ▸ ht2 with rfl
              exact absurd hvc (by simpa using hv)
    · intro t2 ht2 hrows
      rcases PortfolioFile.parsed.injEq .. ▸ ht2 with rfl
      rw [generate_summary, if_pos (by simp [hrows])]

/-- Witness for C7 (amended) at a concrete input: a parsed file with zero
rows yields the clean no-data return. -/
theorem summary_exit_conditions_witness :
    generate_summary (.parsed ⟨true, true, true, []⟩) = .noData :=
  (summary_exit_conditions (.parsed ⟨true, true, true, []⟩)).2
    ⟨true, true, true, []⟩ rfl rfl

/-- Counterexample to C8 as stated: a non-empty parseable portfolio table
(one row valued 7, `card_market_value` column present, `card_name` column
absent) for which the claim predicts a completed report totalling 7 with
that row as most valuable; the code instead dies of an uncaught `KeyError`
while printing the report, so nothing of the kind is reported. -/
theorem summary_report_counterexample :
    generate_summary (.parsed ⟨true, false, true, [⟨"", "y", 7⟩]⟩) =
      .crash ∧
    SummaryOutcome.crash ≠ .report 7 (some ⟨"", "y", 7⟩) false := by
  decide

/-- C8 amended: for every non-empty parseable portfolio table that also
carries the `card_name` and `card_id` columns (without them the report dies
of an uncaught `KeyError`, see the counterexample), the reported total is
the sum of `card_market_value` over all rows and the reported most-valuable
card is the row at the first position attaining the maximum (stable argmax);
when the `card_market_value` column is absent the total is reported as 0
with a diagnostic and the report states that no most-valuable card can be
determined, without aborting. -/
theorem summary_report_content (t : PortfolioTable) (h1 : t.rows ≠ []) :
    (t.has_value_col = true → t.has_card_name_col = true →
      t.has_card_id_col = true →
      ∃ mv, t.rows[idxmax (t.rows.map (fun row => row.card_market_value))]? =
          some mv ∧
        generate_summary (.parsed t) =
          .report (t.rows.map (fun row => row.card_market_value)).sum
            (some mv) false ∧
        (∀ row ∈ t.rows, row.card_market_value ≤ mv.card_market_value) ∧
        (∀ j < idxmax (t.rows.map (fun row => row.card_market_value)),
          ∀ w, t.rows[j]? = some w →
            w.card_market_value < mv.card_market_value)) ∧
    (t.has_value_col = false →
      generate_summary (.parsed t) = .report 0 none true) := by
  have he : ¬t.rows.isEmpty := by simpa using h1
  constructor
  · intro hv hn hc
    have hvalsne : t.rows.map (fun row => row.card_market_value) ≠ [] := by
      simpa using h1
    have hlt : idxmax (t.rows.map (fun row => row.card_market_value)) <
        t.rows.length := by
      have := idxmax_lt_length _ hvalsne
      simpa using this
    set i := idxmax (t.rows.map (fun row => row.card_market_value)) with hi
    obtain ⟨mv, hget0⟩ : ∃ mv, t.rows[i]? = some mv :=
      ⟨_, List.getElem?_eq_getElem hlt⟩
    have hmv : mv.card_market_value =
        maxVal (t.rows.map (fun row => row.card_market_value)) := by
      have hg := getElem_idxmax_eq_maxVal _ hvalsne
      rw [← hi, List.getElem?_map, hget0, Option.map_some'] at hg
      exact Option.some.injEq .. ▸ hg
    refine ⟨mv, hget0, ?_, ?_, ?_⟩
    · rw [generate_summary, if_neg he]
      simp only [hv, if_true, hget0, hn, hc,
        Bool.and_self, Bool.not_true, if_true]
    · intro row hrow
      rw [hmv]
      exact le_maxVal _ _ (List.mem_map_of_mem _ hrow)
    · intro j hj w hw
      rw [hmv]
      refine lt_maxVal_of_lt_idxmax _ j (hi ▸ hj) w.card_market_value ?_
      rw [List.getElem?_map, hw]
      rfl
  · intro hv
    rw [generate_summary, if_neg he]
    simp only [hv, Bool.false_eq_true, if_false, Bool.not_false]

/-- Witness for C8 (amended) at a concrete input: three rows valued 10,
25.5 and 5 — the summary reports total 40.5 and the 25.5 row as most
valuable. -/
theorem summary_report_content_witness :
    ((⟨true, true, true,
      [⟨"A", "a-1", 10⟩, ⟨"B", "b-2", 51/2⟩, ⟨"C", "c-3", 5⟩]⟩ :
        PortfolioTable).rows ≠ []) ∧
    (((⟨true, true, true,
      [⟨"A", "a-1", 10⟩, ⟨"B", "b-2", 51/2⟩, ⟨"C", "c-3", 5⟩]⟩ :
        PortfolioTable).has_value_col = true →
      (⟨true, true, true,
      [⟨"A", "a-1", 10⟩, ⟨"B", "b-2", 51/2⟩, ⟨"C", "c-3", 5⟩]⟩ :
        PortfolioTable).has_card_name_col = true →
      (⟨true, true, true,
      [⟨"A", "a-1", 10⟩, ⟨"B", "b-2", 51/2⟩, ⟨"C", "c-3", 5⟩]⟩ :
        PortfolioTable).has_card_id_col = true →
      ∃ mv, (⟨true, true, true,
      [⟨"A", "a-1", 10⟩, ⟨"B", "b-2", 51/2⟩, ⟨"C", "c-3", 5⟩]⟩ :
        PortfolioTable).rows[idxmax ((⟨true, true, true,
      [⟨"A", "a-1", 10⟩, ⟨"B", "b-2", 51/2⟩, ⟨"C", "c-3", 5⟩]⟩ :
        PortfolioTable).rows.map (fun row => row.card_market_value))]? =
          some mv ∧
        generate_summary (.parsed ⟨true, true, true,
          [⟨"A", "a-1", 10⟩, ⟨"B", "b-2", 51/2⟩, ⟨"C", "c-3", 5⟩]⟩) =
          .report ((⟨true, true, true,
      [⟨"A", "a-1", 10⟩, ⟨"B", "b-2", 51/2⟩, ⟨"C", "c-3", 5⟩]⟩ :
        PortfolioTable).rows.map (fun row => row.card_market_value)).sum
            (some mv) false ∧
        (∀ row ∈ (⟨true, true, true,
      [⟨"A", "a-1", 10⟩, ⟨"B", "b-2", 51/2⟩, ⟨"C", "c-3", 5⟩]⟩ :
        PortfolioTable).rows,
          row.card_market_value ≤ mv.card_market_value) ∧
        (∀ j < idxmax ((⟨true, true, true,
      [⟨"A", "a-1", 10⟩, ⟨"B", "b-2", 51/2⟩, ⟨"C", "c-3", 5⟩]⟩ :
        PortfolioTable).rows.map (fun row => row.card_market_value)),
          ∀ w, (⟨true, true, true,
      [⟨"A", "a-1", 10⟩, ⟨"B", "b-2", 51/2⟩, ⟨"C", "c-3", 5⟩]⟩ :
        PortfolioTable).rows[j]? = some w →
            w.card_market_value < mv.card_market_value)) ∧
    ((⟨true, true, true,
      [⟨"A", "a-1", 10⟩, ⟨"B", "b-2", 51/2⟩, ⟨"C", "c-3", 5⟩]⟩ :
        PortfolioTable).has_value_col = false →
      generate_summary (.parsed ⟨true, true, true,
        [⟨"A", "a-1", 10⟩, ⟨"B", "b-2", 51/2⟩, ⟨"C", "c-3", 5⟩]⟩) =
        .report 0 none true)) :=
  ⟨by decide,
   summary_report_content
     ⟨true, true, true,
      [⟨"A", "a-1", 10⟩, ⟨"B", "b-2", 51/2⟩, ⟨"C", "c-3", 5⟩]⟩
     (by decide)⟩

/-- Counterexample to C10 as stated: a document whose single record lacks
the `set.name` field (so the flattened frame has no `set_name` column).  The
loader synthesizes the column with `pd.NA` (modelled `none`), not with the
empty string: the resulting record's `set_name` is `none`, and
`none ≠ some ""`.  The distinction is observable downstream — a later merge
`fillna`s an `NA` `set_name` to `"NOT_FOUND"`, which an empty string would
escape. -/
theorem lookup_missing_column_counterexample :
    _load_lookup_data [[⟨some "x", some "s", none, some "n", none, none⟩]] =
      [⟨some "x", some "s", none, some "n", 0⟩] ∧
    ((⟨some "x", some "s", none, some "n", 0⟩ :
        LookupRecord).set_name ≠ some "") := by
  decide

/-- C10 amended: for every lookup record lacking any of the five required
output fields, the loader synthesizes the missing field with the `NA`
marker (`none`) for the string fields `card_id`, `set_id`, `set_name`,
`name` — not with an empty string — and with `0.0` for
`card_market_value`; the load is total (never aborts on a missing column).
Stated over the per-record load: missing source fields pass through as
`none`, and missing price fields yield the synthesized value `0.0`. -/
theorem lookup_missing_column_defaults (r : RawLookupRecord)
    (hh : r.holofoil_market = none) (hn : r.normal_market = none) :
    toLookupRecord r =
      ⟨r.id, r.set_id, r.set_name, r.name, 0⟩ := by
  unfold toLookupRecord derivedValue
  rw [hh, hn]
  rfl

/-- Witness for C10 (amended): the record with every field absent loads as
all-`NA` strings and value `0.0`. -/
theorem lookup_missing_column_defaults_witness :
    ((⟨none, none, none, none, none, none⟩ :
        RawLookupRecord).holofoil_market = none) ∧
    toLookupRecord ⟨none, none, none, none, none, none⟩ =
      ⟨none, none, none, none, 0⟩ :=
  ⟨rfl, lookup_missing_column_defaults
    ⟨none, none, none, none, none, none⟩ rfl rfl⟩

theorem nodup_keepFirstBy : ∀ (seen : List (Option String))
    (l : List LookupRecord), (keepFirstBy seen l).Nodup
  | _, [] => List.nodup_nil
  | seen, a :: t => by
    by_cases ha : a.card_id ∈ seen
    · simpa only [keepFirstBy, if_pos ha] using nodup_keepFirstBy seen t
    · simp only [keepFirstBy, if_neg ha]
      refine List.nodup_cons.mpr ⟨?_, nodup_keepFirstBy (a.card_id :: seen) t⟩
      intro hmem
      exact key_not_seen_of_mem_keepFirstBy hmem (List.mem_cons_self _ _)

theorem nodup_load_lookup (docs : List (List RawLookupRecord)) :
    (_load_lookup_data docs).Nodup :=
  nodup_keepFirstBy [] _

/-- No two distinct source records share a `card_id` and a
`card_market_value`: the condition under which the max-value dedup rule is
deterministic. -/
def noValueTies (l : List LookupRecord) : Prop :=
  ∀ x ∈ l, ∀ y ∈ l, x.card_id = y.card_id →
    x.card_market_value = y.card_market_value → x = y

theorem mem_load_lookup_iff {docs : List (List RawLookupRecord)}
    (hties : noValueTies (allLookupRecords docs)) (x : LookupRecord) :
    x ∈ _load_lookup_data docs ↔
      x ∈ allLookupRecords docs ∧
      ∀ y ∈ allLookupRecords docs, y.card_id = x.card_id →
        y.card_market_value ≤ x.card_market_value := by
  have hperm := List.perm_insertionSort valGe (allLookupRecords docs)
  constructor
  · intro hx
    refine ⟨hperm.mem_iff.mp (mem_of_mem_keepFirstBy hx), ?_⟩
    intro y hy hyk
    exact keepFirstBy_max_of_sorted (List.sorted_insertionSort valGe _) hx y
      (hperm.mem_iff.mpr hy) hyk
  · rintro ⟨hx, hdom⟩
    have hcount : countKey x.card_id (_load_lookup_data docs) = 1 :=
      countKey_keepFirstBy_eq_one (by simp)
        ⟨x, hperm.mem_iff.mpr hx, rfl⟩
    have hpos : 0 < (_load_lookup_data docs).countP
        (fun z => decide (z.card_id = x.card_id)) := by
      rw [countKey] at hcount
      omega
    rcases List.countP_pos_iff.mp hpos with ⟨z, hz, hzk⟩
    simp only [decide_eq_true_eq] at hzk
    have hzall : z ∈ allLookupRecords docs :=
      hperm.mem_iff.mp (mem_of_mem_keepFirstBy hz)
    have hxlez : x.card_market_value ≤ z.card_market_value :=
      keepFirstBy_max_of_sorted (List.sorted_insertionSort valGe _) hz x
        (hperm.mem_iff.mpr hx) hzk.symm
    have hzlex : z.card_market_value ≤ x.card_market_value :=
      hdom z hzall hzk
    have : x = z :=
      hties x hx z hzall hzk.symm (le_antisymm hxlez hzlex)
    exact this ▸ hz

theorem load_lookup_perm {docs1 docs2 : List (List RawLookupRecord)}
    (hd : docs1.Perm docs2)
    (hties : noValueTies (allLookupRecords docs1)) :
    (_load_lookup_data docs1).Perm (_load_lookup_data docs2) := by
  have hall : (allLookupRecords docs1).Perm (allLookupRecords docs2) := by
    unfold allLookupRecords
    exact (hd.map (fun d => d.map toLookupRecord)).flatten
  have hties2 : noValueTies (allLookupRecords docs2) := by
    intro x hx y hy hk hv
    exact hties x (hall.mem_iff.mpr hx) y (hall.mem_iff.mpr hy) hk hv
  rw [List.perm_ext_iff_of_nodup (nodup_load_lookup docs1) (nodup_load_lookup docs2)]
  intro a
  rw [mem_load_lookup_iff hties a, mem_load_lookup_iff hties2 a]
  constructor
  · rintro ⟨ha, hdom⟩
    exact ⟨hall.mem_iff.mp ha,
      fun y hy hk => hdom y (hall.mem_iff.mpr hy) hk⟩
  · rintro ⟨ha, hdom⟩
    exact ⟨hall.mem_iff.mpr ha,
      fun y hy hk => hdom y (hall.mem_iff.mp hy) hk⟩

theorem perm_eq_of_length_le_one {l1 l2 : List LookupRecord}
    (h : l1.Perm l2) (hlen : l1.length ≤ 1) : l1 = l2 := by
  rcases l1 with _ | ⟨a, _ | ⟨b, t⟩⟩
  · exact (h.nil_eq).symm ▸ rfl
  · exact List.singleton_perm.mp h
  · simp at hlen

theorem mergeLeft_congr_lookup {lk1 lk2 : List LookupRecord}
    (h : lk1.Perm lk2) (hu : ∀ k, countKey k lk1 ≤ 1) (inv : List InvRow) :
    mergeLeft inv lk1 = mergeLeft inv lk2 := by
  unfold mergeLeft
  congr 1
  funext r
  have hfil : lk1.filter (fun lr => decide (lr.card_id = some r.card_id)) =
      lk2.filter (fun lr => decide (lr.card_id = some r.card_id)) := by
    refine perm_eq_of_length_le_one (h.filter _) ?_
    have := hu (some r.card_id)
    rwa [countKey, List.countP_eq_length_filter] at this
  rw [hfil]

/-- Relation between two runs' inventory-load results: both raise, or both
return row lists that are permutations of each other. -/
def optPerm (o1 o2 : Option (List InvRow)) : Prop :=
  match o1, o2 with
  | none, none => True
  | some a, some b => a.Perm b
  | _, _ => False

theorem optPerm_trans {o1 o2 o3 : Option (List InvRow)}
    (h1 : optPerm o1 o2) (h2 : optPerm o2 o3) : optPerm o1 o3 := by
  rcases o1 with _ | a <;> rcases o2 with _ | b <;> rcases o3 with _ | c <;>
    simp [optPerm] at *
  exact h1.trans h2

theorem load_inventory_perm {tables1 tables2 : List RawInvTable}
    (hp : tables1.Perm tables2) :
    optPerm (_load_inventory_data tables1) (_load_inventory_data tables2) := by
  induction hp with
  | nil => simp [_load_inventory_data, optPerm]
  | cons t hp2 ih =>
    rename_i l1 l2
    simp only [_load_inventory_data]
    rcases ht : loadInvTable t with _ | rs
    · rcases h1 : _load_inventory_data l1 with _ | a <;>
        rcases h2 : _load_inventory_data l2 with _ | b <;>
        simp [optPerm]
    · rcases h1 : _load_inventory_data l1 with _ | a <;>
        rcases h2 : _load_inventory_data l2 with _ | b
      all_goals rw [h1, h2] at ih
      · simp [optPerm]
      · simp [optPerm] at ih
      · simp [optPerm] at ih
      · simp only [optPerm] at ih ⊢
        exact ih.append_left rs
  | swap t u l =>
    simp only [_load_inventory_data]
    rcases ht : loadInvTable t with _ | rt <;>
      rcases hu : loadInvTable u with _ | ru <;>
      rcases hl : _load_inventory_data l with _ | rl
    all_goals simp only [optPerm]
    exact List.perm_append_comm_assoc ru rt rl
  | trans h1 h2 ih1 ih2 => exact optPerm_trans ih1 ih2

/-- Counterexample to C9 as stated: two lookup documents carry the same
`card_id` at the same (tied) `card_market_value` but different `set_name`s.
Swapping their discovery order changes which record the max-value dedup
keeps, and the final portfolio row content differs (`set_name` is `"Alpha"`
under one order and `"Beta"` under the other). -/
theorem etl_order_counterexample :
    ([[⟨some "x-1", some "x", some "Alpha", some "a", some 5, none⟩],
      [⟨some "x-1", some "x", some "Beta", some "b", some 5, none⟩]] :
      List (List RawLookupRecord)).Perm
     [[⟨some "x-1", some "x", some "Beta", some "b", some 5, none⟩],
      [⟨some "x-1", some "x", some "Alpha", some "a", some 5, none⟩]] ∧
    update_portfolio
      [⟨true, false, true, true, false, true, true, true,
        [⟨"Charizard", "", "x", "1", "", "B", "1", "1"⟩]⟩]
      [[⟨some "x-1", some "x", some "Alpha", some "a", some 5, none⟩],
       [⟨some "x-1", some "x", some "Beta", some "b", some 5, none⟩]] =
      some ⟨final_cols,
        [⟨"x-1", "Charizard", "x", "1", "B", "1", "1", "Alpha", 5,
          "B-1-1"⟩], false⟩ ∧
    update_portfolio
      [⟨true, false, true, true, false, true, true, true,
        [⟨"Charizard", "", "x", "1", "", "B", "1", "1"⟩]⟩]
      [[⟨some "x-1", some "x", some "Beta", some "b", some 5, none⟩],
       [⟨some "x-1", some "x", some "Alpha", some "a", some 5, none⟩]] =
      some ⟨final_cols,
        [⟨"x-1", "Charizard", "x", "1", "B", "1", "1", "Beta", 5,
          "B-1-1"⟩], false⟩ ∧
    (⟨"x-1", "Charizard", "x", "1", "B", "1", "1", "Alpha", 5, "B-1-1"⟩ :
      PortfolioRow) ≠
      ⟨"x-1", "Charizard", "x", "1", "B", "1", "1", "Beta", 5, "B-1-1"⟩ :=
  ⟨List.Perm.swap _ _ _, by decide, by decide, by decide⟩

/-- C9 amended: permuting the discovery order of the inventory tables and
of the lookup documents leaves the output header unchanged and permutes the
output row content, provided no two distinct lookup source records share a
`card_id` and tie on `card_market_value` (with such ties, which tied record
survives the dedup depends on discovery order — see the counterexample). -/
theorem etl_order_independence (tables1 tables2 : List RawInvTable)
    (docs1 docs2 : List (List RawLookupRecord)) (out1 out2 : UpdateOutput)
    (hp : tables1.Perm tables2) (hd : docs1.Perm docs2)
    (hties : noValueTies (allLookupRecords docs1))
    (h1 : update_portfolio tables1 docs1 = some out1)
    (h2 : update_portfolio tables2 docs2 = some out2) :
    out1.header = out2.header ∧ out1.rows.Perm out2.rows := by
  have hop := load_inventory_perm hp
  unfold update_portfolio at h1 h2
  rcases hi1 : _load_inventory_data tables1 with _ | inv1 <;>
    rcases hi2 : _load_inventory_data tables2 with _ | inv2 <;>
    rw [hi1] at h1 hop <;> rw [hi2] at h2 hop
  · simp at h1
  · simp at h1
  · simp at h2
  · simp only [optPerm] at hop
    dsimp only at h1 h2
    by_cases he1 : inv1.isEmpty
    · have he2 : inv2.isEmpty := by
        have : inv1 = [] := List.isEmpty_iff.mp he1
        rw [this] at hop
        exact List.isEmpty_iff.mpr hop.nil_eq.symm
      rw [if_pos he1] at h1
      rw [if_pos he2] at h2
      rcases Option.some.injEq .. ▸ h1 with rfl
      rcases Option.some.injEq .. ▸ h2 with rfl
      exact ⟨rfl, List.Perm.refl _⟩
    · have he2 : ¬inv2.isEmpty := by
        intro h
        have : inv2 = [] := List.isEmpty_iff.mp h
        rw [this] at hop
        exact he1 (List.isEmpty_iff.mpr hop.eq_nil)
      rw [if_neg he1] at h1
      rw [if_neg he2] at h2
      rcases Option.some.injEq .. ▸ h1 with rfl
      rcases Option.some.injEq .. ▸ h2 with rfl
      refine ⟨rfl, ?_⟩
      have hm1 : mergeLeft inv1 (_load_lookup_data docs1) =
          mergeLeft inv1 (_load_lookup_data docs2) :=
        mergeLeft_congr_lookup (load_lookup_perm hd hties)
          (fun k => countKey_load_lookup_le_one k docs1) inv1
      dsimp only
      rw [hm1]
      unfold mergeLeft
      exact hop.flatMap_right _

/-- Witness for C9 (amended) at concrete input: duplicate `card_id` entries
at distinct values 5 and 3; either discovery order keeps the value-5 record
and the outputs agree. -/
theorem etl_order_independence_witness :
    ((⟨final_cols,
        [⟨"x-1", "Charizard", "x", "1", "B", "1", "1", "Alpha", 5,
          "B-1-1"⟩], false⟩ : UpdateOutput).header =
      (⟨final_cols,
        [⟨"x-1", "Charizard", "x", "1", "B", "1", "1", "Alpha", 5,
          "B-1-1"⟩], false⟩ : UpdateOutput).header) ∧
    (⟨final_cols,
        [⟨"x-1", "Charizard", "x", "1", "B", "1", "1", "Alpha", 5,
          "B-1-1"⟩], false⟩ : UpdateOutput).rows.Perm
      (⟨final_cols,
        [⟨"x-1", "Charizard", "x", "1", "B", "1", "1", "Alpha", 5,
          "B-1-1"⟩], false⟩ : UpdateOutput).rows :=
  etl_order_independence
    [⟨true, false, true, true, false, true, true, true,
      [⟨"Charizard", "", "x", "1", "", "B", "1", "1"⟩]⟩]
    [⟨true, false, true, true, false, true, true, true,
      [⟨"Charizard", "", "x", "1", "", "B", "1", "1"⟩]⟩]
    [[⟨some "x-1", some "x", some "Alpha", some "a", some 5, none⟩],
     [⟨some "x-1", some "x", some "Gamma", some "g", some 3, none⟩]]
    [[⟨some "x-1", some "x", some "Gamma", some "g", some 3, none⟩],
     [⟨some "x-1", some "x", some "Alpha", some "a", some 5, none⟩]]
    ⟨final_cols,
      [⟨"x-1", "Charizard", "x", "1", "B", "1", "1", "Alpha", 5,
        "B-1-1"⟩], false⟩
    ⟨final_cols,
      [⟨"x-1", "Charizard", "x", "1", "B", "1", "1", "Alpha", 5,
        "B-1-1"⟩], false⟩
    (List.Perm.refl _) (List.Perm.swap _ _ _)
    (by unfold noValueTies; decide) (by decide) (by decide)
